import Mathlib

/-!
Verification of the core logic of the Nepali festival countdown utility
(`src/main.py`): the festival store (`load_festivals` / `save_festivals`),
the occurrence resolver (`next_occurrence`), the countdown formatter
(`get_time_delta_str`), and the add/remove shell actions (`save_new`,
`remove_selected`).

Modelling conventions:
* AD calendar dates are represented by integers under an order-preserving
  encoding (Python `date` objects are totally ordered; only ordering and
  equality of dates are used by the code).  Concrete dates in examples use
  the `yyyymmdd` key, which is order-isomorphic on valid dates.
* Instants (`datetime`) are integers counting microseconds, matching the
  exact microsecond resolution of Python `timedelta`.
* The external `nepali_datetime` capability is an abstract `CalendarAdapter`
  (a `bs_to_ad` function returning `Option`, where `none` models a raised
  `ValueError` / invalid BS date, and the current BS year).  `src/main.py`
  never implements BS arithmetic itself.
* The JSON text layer (`json.load` / `json.dump`, Python stdlib, external to
  this repository) is modelled at the level of parsed JSON values: a file is
  either missing, corrupt (text that fails JSON parsing), or holds a parsed
  JSON value.  `json.dump` followed by `json.load` is the identity on the
  values in use (lists/dicts of strings and ints), per the stdlib contract.
* `datetime.now()` read inside `get_time_delta_str` is passed as the
  explicit `now` parameter.
-/

/-- A festival record, the dict `{name, month, day}` built by `save_new` in
`src/main.py` (`month`/`day` come from Python `int(...)`, hence `Int`). -/
structure FestivalRecord where
  name : String
  month : Int
  day : Int
deriving DecidableEq, Repr

/-- Parsed JSON values, as returned by Python `json.load`. -/
inductive Json where
  | str : String → Json
  | num : Int → Json
  | arr : List Json → Json
  | obj : List (String × Json) → Json
  | bool : Bool → Json
  | null : Json

/-- State of the persisted `festivals.json` file: absent
(`FileNotFoundError` on open), text that fails JSON parsing
(`json.JSONDecodeError`), or text that parses to a JSON value. -/
inductive FileState where
  | missing : FileState
  | corrupt : String → FileState
  | parsed : Json → FileState

/-- `load_festivals` from `src/main.py`: returns the parsed JSON value;
on missing file or malformed content the `except` branch returns `[]`. -/
def load_festivals : FileState → Json
  | FileState.missing => Json.arr []
  | FileState.corrupt _ => Json.arr []
  | FileState.parsed v => v

/-- The JSON object a festival dict serializes to: keys in the insertion
order `name`, `month`, `day` used by `save_new`. -/
def encodeRecord (r : FestivalRecord) : Json :=
  Json.obj [("name", Json.str r.name), ("month", Json.num r.month), ("day", Json.num r.day)]

/-- `save_festivals` from `src/main.py`: `json.dump` of the full list,
overwriting the file, modelled as the parsed value it writes. -/
def save_festivals (festivals : List FestivalRecord) : FileState :=
  FileState.parsed (Json.arr (festivals.map encodeRecord))

/-- Reading a festival dict back from its JSON object (inverse of
`encodeRecord`; the Python program uses the loaded dicts directly). -/
def decodeRecord : Json → Option FestivalRecord
  | Json.obj [("name", Json.str n), ("month", Json.num m), ("day", Json.num d)] =>
      some { name := n, month := m, day := d }
  | _ => none

/-- Reading a whole list of festival dicts back from JSON values. -/
def decodeList : List Json → Option (List FestivalRecord)
  | [] => some []
  | j :: rest =>
      match decodeRecord j, decodeList rest with
      | some r, some rs => some (r :: rs)
      | _, _ => none

/-- Reading the persisted collection back from a JSON value. -/
def decodeFestivals : Json → Option (List FestivalRecord)
  | Json.arr xs => decodeList xs
  | _ => none

/-- The external BS calendar capability (`nepali_datetime`): the current BS
year (`nep_date.today().year`) and the conversion
`nep_date(y, m, d).to_datetime_date()`, with `none` for an invalid BS date
(the library raises `ValueError`). -/
structure CalendarAdapter where
  todayBSYear : Int
  bs_to_ad : Int → Int → Int → Option Int

/-- `next_occurrence` from `src/main.py` (capability present): convert
(current BS year, month, day); if the candidate is before today, convert
with the next BS year instead; a failed conversion propagates. -/
def next_occurrence (A : CalendarAdapter) (festival : FestivalRecord) (today : Int) :
    Option Int :=
  let y := A.todayBSYear
  match A.bs_to_ad y festival.month festival.day with
  | none => none
  | some candidate =>
      if candidate < today then A.bs_to_ad (y + 1) festival.month festival.day
      else some candidate

/-- `next_occurrence` instrumented with the list of BS years actually passed
to the conversion capability, in call order. -/
def next_occurrence_calls (A : CalendarAdapter) (festival : FestivalRecord) (today : Int) :
    Option Int × List Int :=
  let y := A.todayBSYear
  match A.bs_to_ad y festival.month festival.day with
  | none => (none, [y])
  | some candidate =>
      if candidate < today then
        (A.bs_to_ad (y + 1) festival.month festival.day, [y, y + 1])
      else (some candidate, [y])

/-- Python `f"{n:02}"` on a non-negative integer: zero-pad to width two. -/
def pad2 (n : Nat) : String :=
  if n < 10 then "0" ++ toString n else toString n

/-- `get_time_delta_str` from `src/main.py`.  `target` and `now` are instants
in microseconds (`now` is the `datetime.now()` read inside the function).
`delta.total_seconds() < 0` holds exactly when the microsecond difference is
negative; `delta.days` / `delta.seconds` are the normalized `timedelta`
fields `delta // 86400e6` and `(delta mod 86400e6) // 1e6`. -/
def get_time_delta_str (target now : Int) : String :=
  let delta := target - now
  if delta < 0 then "Already passed"
  else
    let d := delta.toNat
    let days := d / 86400000000
    let secs := d % 86400000000 / 1000000
    let hours := secs / 3600
    let rem := secs % 3600
    let minutes := rem / 60
    let seconds := rem % 60
    toString days ++ "d " ++ pad2 hours ++ "h " ++ pad2 minutes ++ "m "
      ++ pad2 seconds ++ "s"

/-- Modelled from the spec (section 4.4 Countdown Formatter): the sentinel
for a negative remaining duration, else
`"{days}d {hours:02}h {minutes:02}m {seconds:02}s"` with days the whole days
of the duration and hours/minutes/seconds the truncated remainder
decomposition of its whole seconds. -/
def format_remaining (target now : Int) : String :=
  if target - now < 0 then "Already passed"
  else
    let t := (target - now).toNat / 1000000
    toString (t / 86400) ++ "d " ++ pad2 (t / 3600 % 24) ++ "h "
      ++ pad2 (t / 60 % 60) ++ "m " ++ pad2 (t % 60) ++ "s"

/-- Python `str.strip()` (whitespace stripping, as used on the name entry and
inside `int(...)`). -/
def stripString (s : String) : String :=
  String.mk (((s.data.dropWhile Char.isWhitespace).reverse.dropWhile
    Char.isWhitespace).reverse)

/-- Decimal value of a digit list. -/
def digitsVal (cs : List Char) : Nat :=
  cs.foldl (fun a c => a * 10 + (c.toNat - 48)) 0

/-- Python `int(str)` on plain decimal input: optional sign then decimal
digits after whitespace stripping, `none` for a `ValueError`.  (Underscore
separators and non-ASCII digits, which Python also accepts, do not occur in
the inputs of interest and are not modelled.) -/
def parseInt (s : String) : Option Int :=
  match (stripString s).data with
  | [] => none
  | '-' :: rest =>
      if rest ≠ [] ∧ rest.all Char.isDigit then some (-(digitsVal rest : Int)) else none
  | '+' :: rest =>
      if rest ≠ [] ∧ rest.all Char.isDigit then some ((digitsVal rest : Int)) else none
  | cs =>
      if cs.all Char.isDigit then some ((digitsVal cs : Int)) else none

/-- `save_new` from `src/main.py` (the add action): build the dict with the
stripped name (defaulting to `"Unnamed"` when empty) and `int`-parsed month
and day, append it and persist; any exception aborts with the store
unchanged (`none`). -/
def save_new (nameInput monthInput dayInput : String)
    (festivals : List FestivalRecord) :
    Option (List FestivalRecord × FileState) :=
  match parseInt monthInput, parseInt dayInput with
  | some m, some d =>
      let fest : FestivalRecord :=
        { name := if stripString nameInput = "" then "Unnamed" else stripString nameInput
          month := m
          day := d }
      let fs := festivals ++ [fest]
      some (fs, save_festivals fs)
  | _, _ => none

/-- `remove_selected` from `src/main.py`: when the selected index is in
range, delete it (`del festivals[idx]`) and persist; otherwise no-op.  The
second component records the `save_festivals` call (`none` = no save). -/
def remove_selected (festivals : List FestivalRecord) (idx : Int) :
    List FestivalRecord × Option FileState :=
  if 0 ≤ idx ∧ idx < festivals.length then
    let fs := festivals.eraseIdx idx.toNat
    (fs, some (save_festivals fs))
  else (festivals, none)

/-- Concrete adapter for the resolver example: BS year 2081 is current and
`(y, 1, 1)` maps to AD `2024-04-13` shifted by whole years (`yyyymmdd`
keys); other (month, day) pairs are invalid. -/
def exAdapter : CalendarAdapter where
  todayBSYear := 2081
  bs_to_ad := fun y m d =>
    if m = 1 ∧ d = 1 then some ((y - 2081) * 10000 + 20240413) else none

/-- Concrete adapter whose conversion is monotone in the BS year and whose
next BS year lies entirely after the example today (used to witness the
resolver-monotonicity hypotheses). -/
def monoAdapter : CalendarAdapter where
  todayBSYear := 2081
  bs_to_ad := fun y m d => some (y * 10000 + m * 100 + d)

/-- Concrete adapter on which every conversion fails. -/
def noneAdapter : CalendarAdapter where
  todayBSYear := 2081
  bs_to_ad := fun _ _ _ => none

/-- A concrete three-element collection for the remove example. -/
def sampleFestivals : List FestivalRecord :=
  [{ name := "A", month := 1, day := 1 }, { name := "B", month := 2, day := 2 },
    { name := "C", month := 3, day := 3 }]

/-! Theorems.  Arithmetic helpers first, then one theorem per claim. -/

theorem usec_mod_day_div (d : Nat) : d % 86400000000 / 1000000 = d / 1000000 % 86400 := by
  omega

theorem usec_div_day (d : Nat) : d / 86400000000 = d / 1000000 / 86400 := by
  omega

theorem secs_hours (t : Nat) : t % 86400 / 3600 = t / 3600 % 24 := by
  omega

theorem secs_minutes (t : Nat) : t % 86400 % 3600 / 60 = t / 60 % 60 := by
  omega

theorem secs_seconds (t : Nat) : t % 86400 % 3600 % 60 = t % 60 := by
  omega

theorem decodeRecord_encodeRecord (r : FestivalRecord) :
    decodeRecord (encodeRecord r) = some r := rfl

theorem decodeList_map_encodeRecord (X : List FestivalRecord) :
    decodeList (X.map encodeRecord) = some X := by
  induction X with
  | nil => rfl
  | cons r rest ih => simp [decodeList, decodeRecord_encodeRecord, ih]

/-- C3: for every pair of instants, a negative delta formats as the exact
sentinel `"Already passed"`, and a non-negative delta as
`"{days}d {hours:02}h {minutes:02}m {seconds:02}s"` by truncation
(`get_time_delta_str` agrees everywhere with the spec-side
`format_remaining`); moreover the zero delta gives `"0d 00h 00m 00s"`, a
delta of minus one second gives `"Already passed"`, and a delta of exactly
90061 seconds gives `"1d 01h 01m 01s"`. -/
theorem get_time_delta_str_matches_format_remaining :
    (∀ target now : Int, get_time_delta_str target now = format_remaining target now) ∧
    get_time_delta_str 0 0 = "0d 00h 00m 00s" ∧
    get_time_delta_str (-1000000) 0 = "Already passed" ∧
    get_time_delta_str 90061000000 0 = "1d 01h 01m 01s" := by
  refine ⟨?_, rfl, rfl, rfl⟩
  intro target now
  by_cases h : target - now < 0
  · simp [get_time_delta_str, format_remaining, h]
  · simp only [get_time_delta_str, format_remaining, if_neg h]
    rw [usec_div_day, usec_mod_day_div, secs_hours, secs_minutes, secs_seconds]

/-- C4: saving any ordered collection of festival records and loading again
yields exactly the serialized collection, and decoding it recovers the
original records with all fields and the list order preserved. -/
theorem load_save_round_trip (X : List FestivalRecord) :
    load_festivals (save_festivals X) = Json.arr (X.map encodeRecord) ∧
    decodeFestivals (load_festivals (save_festivals X)) = some X := by
  refine ⟨rfl, ?_⟩
  simp [load_festivals, save_festivals, decodeFestivals, decodeList_map_encodeRecord]

/-- C5: loading a missing file, or a file with any malformed (unparseable)
content, returns the empty collection; `load_festivals` is total, so no
error reaches the caller. -/
theorem load_missing_or_corrupt_empty :
    load_festivals FileState.missing = Json.arr [] ∧
    ∀ raw : String, load_festivals (FileState.corrupt raw) = Json.arr [] :=
  ⟨rfl, fun _ => rfl⟩

/-- C9: the countdown formatter is a pure, deterministic function of its two
instant arguments: equal targets and equal nows give equal strings. -/
theorem get_time_delta_str_deterministic (t1 n1 t2 n2 : Int)
    (ht : t1 = t2) (hn : n1 = n2) :
    get_time_delta_str t1 n1 = get_time_delta_str t2 n2 := by
  rw [ht, hn]

theorem get_time_delta_str_deterministic_witness :
    get_time_delta_str 5000000 0 = get_time_delta_str 5000000 0 :=
  get_time_delta_str_deterministic 5000000 0 5000000 0 rfl rfl

/-- C10: `load_festivals` performs no schema validation — every parsed JSON
value is returned unchanged and no error is raised, including a JSON object
and a list whose entries are not festival records. -/
theorem load_no_schema_validation :
    (∀ j : Json, load_festivals (FileState.parsed j) = j) ∧
    load_festivals (FileState.parsed (Json.obj [("surprise", Json.num 1)])) =
      Json.obj [("surprise", Json.num 1)] ∧
    load_festivals (FileState.parsed (Json.arr [Json.num 7, Json.null])) =
      Json.arr [Json.num 7, Json.null] :=
  ⟨fun _ => rfl, rfl, rfl⟩

/-- C1: for every adapter and record, `next_occurrence` takes the candidate
`bs_to_ad(y, month, day)` for the current BS year `y`, returns it unless it
is strictly before today, and otherwise returns
`bs_to_ad(y + 1, month, day)`; in particular with the example adapter whose
BS `(2081, 1, 1)` is AD `2024-04-13`, before today `2024-06-01`, it returns
the adapter's date for BS `(2082, 1, 1)`. -/
theorem next_occurrence_rollover_alg :
    (∀ (A : CalendarAdapter) (f : FestivalRecord) (today c : Int),
      A.bs_to_ad A.todayBSYear f.month f.day = some c →
      next_occurrence A f today =
        if c < today then A.bs_to_ad (A.todayBSYear + 1) f.month f.day
        else some c) ∧
    next_occurrence exAdapter { name := "New Year", month := 1, day := 1 } 20240601 =
      exAdapter.bs_to_ad 2082 1 1 ∧
    exAdapter.bs_to_ad 2081 1 1 = some 20240413 ∧
    exAdapter.bs_to_ad 2082 1 1 = some 20250413 := by
  refine ⟨?_, rfl, rfl, rfl⟩
  intro A f today c h
  simp only [next_occurrence, h]

theorem next_occurrence_rollover_alg_witness :
    next_occurrence exAdapter { name := "New Year", month := 1, day := 1 } 20240601 =
      if (20240413 : Int) < 20240601 then exAdapter.bs_to_ad (exAdapter.todayBSYear + 1) 1 1
      else some 20240413 :=
  next_occurrence_rollover_alg.1 exAdapter
    { name := "New Year", month := 1, day := 1 } 20240601 20240413 rfl

/-- C2: whenever the adapter's conversion is monotone in the BS year for the
record's (month, day) and every convertible date of the next BS year is not
before today (today lies within the current BS year), a successful
`next_occurrence` returns a date that is at least today and is the earliest
convertible date at least today over BS years at least the current one. -/
theorem next_occurrence_earliest_geq_today
    (A : CalendarAdapter) (f : FestivalRecord) (today r : Int)
    (hmono : ∀ y1 y2 c1 c2, y1 ≤ y2 →
      A.bs_to_ad y1 f.month f.day = some c1 →
      A.bs_to_ad y2 f.month f.day = some c2 → c1 ≤ c2)
    (hnext : ∀ c, A.bs_to_ad (A.todayBSYear + 1) f.month f.day = some c → today ≤ c)
    (hr : next_occurrence A f today = some r) :
    today ≤ r ∧
    ∀ y c, A.todayBSYear ≤ y → A.bs_to_ad y f.month f.day = some c →
      today ≤ c → r ≤ c := by
  rcases h0 : A.bs_to_ad A.todayBSYear f.month f.day with _ | candidate
  · simp only [next_occurrence, h0] at hr
    exact Option.noConfusion hr
  · simp only [next_occurrence, h0] at hr
    by_cases hc : candidate < today
    · rw [if_pos hc] at hr
      refine ⟨hnext r hr, ?_⟩
      intro y c hy hcy htc
      rcases (by omega : y = A.todayBSYear ∨ A.todayBSYear + 1 ≤ y) with he | hge
      · rw [he, h0] at hcy
        injection hcy with hce
        omega
      · exact hmono (A.todayBSYear + 1) y r c hge hr hcy
    · rw [if_neg hc] at hr
      injection hr with hre
      subst hre
      refine ⟨by omega, ?_⟩
      intro y c hy hcy htc
      exact hmono A.todayBSYear y candidate c hy h0 hcy

theorem next_occurrence_earliest_geq_today_witness :
    (20810601 : Int) ≤ 20820101 ∧
    ∀ y c, monoAdapter.todayBSYear ≤ y →
      monoAdapter.bs_to_ad y (1 : Int) (1 : Int) = some c →
      (20810601 : Int) ≤ c → (20820101 : Int) ≤ c :=
  next_occurrence_earliest_geq_today monoAdapter
    { name := "New Year", month := 1, day := 1 } 20810601 20820101
    (by
      intro y1 y2 c1 c2 hle h1 h2
      simp only [monoAdapter, Option.some.injEq] at h1 h2
      omega)
    (by
      intro c hc
      simp only [monoAdapter, Option.some.injEq] at hc
      omega)
    rfl

/-- C6: when the record's (month, day) is an invalid BS date in both the
current BS year and the next one, `next_occurrence` fails (no date is
produced, modelling the propagated ConversionError); the instrumented run
agrees with `next_occurrence`, makes at most two conversion calls, and
never passes a BS year beyond the current year plus one. -/
theorem next_occurrence_invalid_both_years
    (A : CalendarAdapter) (f : FestivalRecord) (today : Int)
    (h1 : A.bs_to_ad A.todayBSYear f.month f.day = none)
    (h2 : A.bs_to_ad (A.todayBSYear + 1) f.month f.day = none) :
    next_occurrence A f today = none ∧
    (next_occurrence_calls A f today).1 = next_occurrence A f today ∧
    (next_occurrence_calls A f today).2.length ≤ 2 ∧
    ∀ y ∈ (next_occurrence_calls A f today).2, y ≤ A.todayBSYear + 1 := by
  refine ⟨?_, ?_, ?_, ?_⟩ <;>
    simp only [next_occurrence, next_occurrence_calls, h1, List.length_cons,
      List.length_nil, List.mem_singleton]
  · omega
  · intro y hy
    subst hy
    omega

theorem next_occurrence_invalid_both_years_witness :
    next_occurrence noneAdapter { name := "Ghost", month := 13, day := 99 } 0 = none ∧
    (next_occurrence_calls noneAdapter { name := "Ghost", month := 13, day := 99 } 0).1 =
      next_occurrence noneAdapter { name := "Ghost", month := 13, day := 99 } 0 ∧
    (next_occurrence_calls noneAdapter { name := "Ghost", month := 13, day := 99 } 0).2.length ≤ 2 ∧
    ∀ y ∈ (next_occurrence_calls noneAdapter { name := "Ghost", month := 13, day := 99 } 0).2,
      y ≤ noneAdapter.todayBSYear + 1 :=
  next_occurrence_invalid_both_years noneAdapter
    { name := "Ghost", month := 13, day := 99 } 0 rfl rfl

/-- C7 (counterexample): the add action accepts month 13 and day 40 — both
outside the 1..12 / 1..31 ranges — and constructs and persists the
out-of-range record, so it does not reject such input. -/
theorem add_accepts_out_of_range_month :
    save_new "Fest" "13" "40" [] =
      some ([{ name := "Fest", month := 13, day := 40 }],
        save_festivals [{ name := "Fest", month := 13, day := 40 }]) ∧
    ¬((13 : Int) ≤ 12) ∧ ¬((40 : Int) ≤ 31) :=
  ⟨rfl, by omega, by omega⟩

/-- C7 (amended): the add action validates month and day as integers only —
any `int`-parseable month and day are accepted, whatever their values, the
record (with the stripped name, defaulting to "Unnamed" when empty) is
appended and the collection persisted; a non-integer month or day aborts
with the store unchanged.  The 1..12 / 1..31 ranges are not enforced. -/
theorem save_new_integer_validation_only
    (n m d : String) (fs : List FestivalRecord) :
    (∀ mi di : Int, parseInt m = some mi → parseInt d = some di →
      save_new n m d fs =
        some (fs ++ [{ name := if stripString n = "" then "Unnamed" else stripString n,
                       month := mi, day := di }],
          save_festivals
            (fs ++ [{ name := if stripString n = "" then "Unnamed" else stripString n,
                      month := mi, day := di }]))) ∧
    (parseInt m = none → save_new n m d fs = none) ∧
    (parseInt d = none → save_new n m d fs = none) := by
  refine ⟨?_, ?_, ?_⟩
  · intro mi di hm hd
    simp only [save_new, hm, hd]
  · intro hm
    simp only [save_new, hm]
  · intro hd
    rcases hm : parseInt m with _ | mi <;> simp only [save_new, hm, hd]

theorem save_new_integer_validation_only_witness :
    save_new " " "13" "40" [] =
      some (([] : List FestivalRecord) ++
          [{ name := if stripString " " = "" then "Unnamed" else stripString " ",
             month := 13, day := 40 }],
        save_festivals
          (([] : List FestivalRecord) ++
            [{ name := if stripString " " = "" then "Unnamed" else stripString " ",
               month := 13, day := 40 }])) :=
  (save_new_integer_validation_only " " "13" "40" []).1 13 40 rfl rfl

/-- C8: removing an in-range index `i` from a collection of size `n` yields
the collection of size `n - 1` keeping all other elements in their original
relative order (take `i` then drop `i + 1`), and that collection is
persisted immediately as part of the same action. -/
theorem remove_selected_spec (X : List FestivalRecord) (i : Nat) (h : i < X.length) :
    (remove_selected X i).1 = X.take i ++ X.drop (i + 1) ∧
    (remove_selected X i).1.length = X.length - 1 ∧
    (remove_selected X i).2 = some (save_festivals (X.take i ++ X.drop (i + 1))) := by
  have hcond : (0 : Int) ≤ (i : Int) ∧ (i : Int) < (X.length : Int) := by
    constructor
    · exact_mod_cast Nat.zero_le i
    · exact_mod_cast h
  have h1 : (remove_selected X i).1 = X.take i ++ X.drop (i + 1) := by
    simp only [remove_selected, if_pos hcond, Int.toNat_natCast]
    exact List.eraseIdx_eq_take_drop_succ X i
  refine ⟨h1, ?_, ?_⟩
  · rw [h1]
    simp only [List.length_append, List.length_take, List.length_drop]
    omega
  · simp only [remove_selected, if_pos hcond, Int.toNat_natCast,
      List.eraseIdx_eq_take_drop_succ]

theorem remove_selected_spec_witness :
    (remove_selected sampleFestivals 1).1 =
      sampleFestivals.take 1 ++ sampleFestivals.drop 2 ∧
    (remove_selected sampleFestivals 1).1.length = sampleFestivals.length - 1 ∧
    (remove_selected sampleFestivals 1).2 =
      some (save_festivals (sampleFestivals.take 1 ++ sampleFestivals.drop 2)) :=
  remove_selected_spec sampleFestivals 1 (by decide)
